import Mathlib

/-!
Verification of the survey-bot core logic (session store and survey engine)
of `src/main.py`, shallowly embedded in Lean.

Modelling conventions:
* `datetime` values are modelled as `Int` seconds; `timedelta.days` is the
  floor of elapsed seconds divided by 86400, which for the positive divisor
  86400 is exactly the `Int` division `e / 86400` of Lean.
* Replies sent to the chat user are modelled as structured result values
  (`StartResult`, `AnswerResult`, `ReviewResult`) carrying exactly the data
  the rendered message contains.
* The global dict `user_sessions` is modelled as a function
  `Nat → Option UserSession`; `dict.__setitem__` is `SessionStore.put`.
* An out-of-range list index (`QUESTIONS[i]` with `i ≥ len(QUESTIONS)`),
  which raises `IndexError` in Python, is modelled by the explicit
  `AnswerResult.indexError` variant, produced with the store unchanged.
-/

namespace Survey

/-- Question catalog entry: prompt text plus its ordered option strings. -/
structure Question where
  question : String
  options : List String
deriving DecidableEq, Repr

/-- The fixed 5-question catalog `QUESTIONS` of `src/main.py`. -/
def QUESTIONS : List Question :=
  [ { question := "What's your age group?",
      options := ["Under 18", "18-25", "26-35", "36-50", "51+"] },
    { question := "How often do you shop online?",
      options := ["Daily", "Weekly", "Monthly", "Rarely", "Never"] },
    { question := "What's your favorite social media platform?",
      options := ["Instagram", "TikTok", "Facebook", "Twitter", "YouTube"] },
    { question := "What type of products are you most interested in?",
      options := ["Electronics", "Fashion", "Home & Kitchen", "Beauty", "Sports"] },
    { question := "How much do you typically spend online per month?",
      options := ["Under $50", "$50-$100", "$100-$200", "$200-$500", "$500+"] } ]

/-- The dict appended by `handle_answer`:
`{"question": ..., "answer": ..., "timestamp": ...}`. -/
structure AnsweredItem where
  question : String
  answer : String
  timestamp : Int
deriving DecidableEq, Repr

/-- The `UserSession` class state. -/
structure UserSession where
  user_id : Nat
  current_question : Nat
  answers : List AnsweredItem
  started_at : Int
  completed : Bool
deriving DecidableEq, Repr

/-- The `UserSession.__init__` constructor: index 0, no answers, not
completed, `started_at` set to the current time. -/
def UserSession.new (uid : Nat) (now : Int) : UserSession :=
  { user_id := uid
    current_question := 0
    answers := []
    started_at := now
    completed := false }

/-- The `UserSession.add_answer` method: append the answer, advance the
index, and when the index reaches `len(QUESTIONS)` set `completed` and
report `True`; otherwise report `False`.  Returns the updated session
(Python mutates in place) together with the boolean return value. -/
def UserSession.add_answer (s : UserSession) (a : AnsweredItem) : UserSession × Bool :=
  let s1 := { s with
    answers := s.answers ++ [a]
    current_question := s.current_question + 1 }
  if s1.current_question ≥ QUESTIONS.length then
    ({ s1 with completed := true }, true)
  else
    (s1, false)

/-- The module-level dict `user_sessions`, keyed by user id. -/
def SessionStore : Type := Nat → Option UserSession

/-- The empty store (fresh process). -/
def SessionStore.empty : SessionStore := fun _ => none

/-- Store update, `user_sessions[user_id] = session`. -/
def SessionStore.put (st : SessionStore) (uid : Nat) (s : UserSession) : SessionStore :=
  fun u => if u = uid then some s else st u

/-- Python `timedelta.days` applied to an elapsed time of `e` seconds:
floor division by 86400.  The `Int` division of Lean is Euclidean, which
for the positive divisor 86400 coincides with floor division, matching
the floor semantics of Python (e.g. `timedelta(seconds=-1).days == -1`). -/
def timedeltaDays (e : Int) : Int := e / 86400

/-- The keyboard prompt that `ask_question` renders:
`Question {current_question+1}/{len(QUESTIONS)}`, the question text, and
the options as the keyboard rows, in catalog order. -/
structure Prompt where
  ordinal : Nat
  total : Nat
  text : String
  options : List String
deriving DecidableEq, Repr

/-- The `ask_question` handler, given the session it looks up: when
`current_question < len(QUESTIONS)` it sends the prompt for the current
question; otherwise it sends nothing. -/
def ask_question (s : UserSession) : Option Prompt :=
  match QUESTIONS[s.current_question]? with
  | some q =>
      some { ordinal := s.current_question + 1
             total := QUESTIONS.length
             text := q.question
             options := q.options }
  | none => none

/-- Outcome of the `start` handler. -/
inductive StartResult where
  /-- The cooldown reply, carrying `days_left = 7 - time_since.days`. -/
  | cooldown (days_left : Int)
  /-- A new session was started; carries the `ask_question` output for it. -/
  | started (prompt : Option Prompt)
deriving DecidableEq, Repr

/-- Outcome of the `handle_answer` handler. -/
inductive AnswerResult where
  /-- No session for this user: "Please start with /start". -/
  | notStarted
  /-- Answer not among the current options: "Please select one of the
  provided options."; the session is left untouched. -/
  | invalidOption
  /-- Answer accepted, survey not yet complete; carries the
  `ask_question` output for the advanced session. -/
  | nextQuestion (prompt : Option Prompt)
  /-- Answer accepted and `add_answer` returned `True`: completion reply. -/
  | surveyComplete
  /-- Models the uncaught Python `IndexError` from
  `QUESTIONS[session.current_question]` when the index is out of range. -/
  | indexError
deriving DecidableEq, Repr

/-- Outcome of the `review` handler. -/
inductive ReviewResult where
  /-- No session, or no answers yet: the reply telling the user to start
  first. -/
  | nothingToReview
  /-- The enumerated answers, without the next-survey footer (session not
  completed). -/
  | inProgress (answers : List AnsweredItem)
  /-- The enumerated answers plus "Next survey available in:
  `days_left` day(s)" (session completed). -/
  | completedReview (answers : List AnsweredItem) (days_left : Int)
deriving DecidableEq, Repr

/-- The guard of the cooldown branch of `start`:
`user_id in user_sessions and user_sessions[user_id].completed`
together with the inner `time_since < timedelta(days=7)`. -/
def cooldownHit (st : SessionStore) (uid : Nat) (now : Int) : Bool :=
  match st uid with
  | some s => s.completed && decide (now - s.started_at < 7 * 86400)
  | none => false

/-- The `days_left` computed inside the cooldown branch of `start`:
`7 - time_since.days`. -/
def startDaysLeft (e : Int) : Int := 7 - timedeltaDays e

/-- The `days_left` computed inside `review` for a completed session:
`max(0, 7 - time_since.days)`. -/
def reviewDaysLeft (e : Int) : Int := max 0 (7 - timedeltaDays e)

/-- The `start` command handler.  If a completed session exists and fewer
than 7 days have elapsed since `started_at`, reply with the cooldown
message and change nothing.  Otherwise store a fresh `UserSession` for
the user (overwriting any previous one) and prompt the first question via
`ask_question`.  Returns the updated store and the reply. -/
def start (st : SessionStore) (uid : Nat) (now : Int) : SessionStore × StartResult :=
  if cooldownHit st uid now then
    match st uid with
    | some s => (st, .cooldown (startDaysLeft (now - s.started_at)))
    | none => (st, .cooldown 0)
  else
    let fresh := UserSession.new uid now
    (st.put uid fresh, .started (ask_question fresh))

/-- The `handle_answer` handler.  With no session, reply `notStarted`.
Otherwise look up `QUESTIONS[session.current_question]` (an out-of-range
index is the `indexError` outcome, store unchanged); reject an answer not
in its options with `invalidOption`, store unchanged; else run
`add_answer` and reply `surveyComplete` or the next `ask_question`
prompt. -/
def handle_answer (st : SessionStore) (uid : Nat) (answer : String) (now : Int) :
    SessionStore × AnswerResult :=
  match st uid with
  | none => (st, .notStarted)
  | some s =>
    match QUESTIONS[s.current_question]? with
    | none => (st, .indexError)
    | some q =>
      if answer ∈ q.options then
        let r := s.add_answer { question := q.question, answer := answer, timestamp := now }
        if r.2 then
          (st.put uid r.1, .surveyComplete)
        else
          (st.put uid r.1, .nextQuestion (ask_question r.1))
      else
        (st, .invalidOption)

/-- The `review` command handler.  With no session or an empty answer
list, reply `nothingToReview`; otherwise list the recorded answers in
order, appending the next-survey footer with
`max(0, 7 - time_since.days)` exactly when the session is completed. -/
def review (st : SessionStore) (uid : Nat) (now : Int) : ReviewResult :=
  match st uid with
  | none => .nothingToReview
  | some s =>
    if s.answers = [] then
      .nothingToReview
    else if s.completed then
      .completedReview s.answers (reviewDaysLeft (now - s.started_at))
    else
      .inProgress s.answers

/-- Pluralization used by the cooldown reply in `start`: the suffix "s"
is appended to "day" exactly when `days_left > 1`. -/
def startDayWord (d : Int) : String :=
  "day" ++ (if d > 1 then "s" else "")

/-- Pluralization used by the footer in `review`: the suffix "s" is
appended to "day" exactly when `days_left != 1`. -/
def reviewDayWord (d : Int) : String :=
  "day" ++ (if d ≠ 1 then "s" else "")

/-- Modelled from the spec: the canonical pluralization rule of §4.2,
`"day" if remaining == 1 else "days"` (the `!=1` tie-break). -/
def canonicalDayWord (d : Int) : String :=
  if d = 1 then "day" else "days"

/-- Stores reachable from a fresh process by any sequence of `start` and
`handle_answer` events. -/
inductive Reachable : SessionStore → Prop where
  | init : Reachable SessionStore.empty
  | step_start (st : SessionStore) (uid : Nat) (now : Int) :
      Reachable st → Reachable (start st uid now).1
  | step_answer (st : SessionStore) (uid : Nat) (answer : String) (now : Int) :
      Reachable st → Reachable (handle_answer st uid answer now).1

/-- The per-session invariant of the data model: the index stays within
`[0, 5]`, the index is 5 exactly when the session is completed, and the
answer count equals the index. -/
def Inv (s : UserSession) : Prop :=
  s.current_question ≤ QUESTIONS.length ∧
  (s.current_question = QUESTIONS.length ↔ s.completed = true) ∧
  s.answers.length = s.current_question

/-- Iterated `handle_answer` events for one user: submit a list of answer
texts in order, threading the store. -/
def runAnswers (st : SessionStore) (uid : Nat) (now : Int) : List String → SessionStore
  | [] => st
  | a :: rest => runAnswers (handle_answer st uid a now).1 uid now rest

/-- The answer entries a run of accepted submissions is expected to
record: each submitted text paired with the question it answered. -/
def expectedAnswers (now : Int) (qs : List Question) (texts : List String) :
    List AnsweredItem :=
  List.zipWith (fun q a => { question := q.question, answer := a, timestamp := now }) qs texts

/-- A concrete incomplete session: question 0 already answered, four to
go. -/
def midSession : UserSession :=
  { user_id := 1
    current_question := 1
    answers := [{ question := "What's your age group?", answer := "Under 18", timestamp := 0 }]
    started_at := 0
    completed := false }

/-- Concrete fixture: one valid option per question, the answers of the
testable scenario of the spec. -/
def demoAnswers : List String :=
  ["Under 18", "Daily", "Instagram", "Electronics", "Under $50"]

/-- Concrete fixture: the session recorded after starting at time 0 and
submitting the five `demoAnswers` at time 0. -/
def doneSession : UserSession :=
  { user_id := 1
    current_question := 5
    answers :=
      [ { question := "What's your age group?"
          answer := "Under 18"
          timestamp := 0 },
        { question := "How often do you shop online?"
          answer := "Daily"
          timestamp := 0 },
        { question := "What's your favorite social media platform?"
          answer := "Instagram"
          timestamp := 0 },
        { question := "What type of products are you most interested in?"
          answer := "Electronics"
          timestamp := 0 },
        { question := "How much do you typically spend online per month?"
          answer := "Under $50"
          timestamp := 0 } ]
    started_at := 0
    completed := true }

/-- Concrete fixture: the store of user 1 after a fresh start at time 0
followed by the five valid `demoAnswers`. -/
def doneStore : SessionStore :=
  runAnswers (start SessionStore.empty 1 0).1 1 0 demoAnswers

/-- The catalog has exactly 5 questions. -/
theorem QUESTIONS_length : QUESTIONS.length = 5 := rfl

/-- Looking up the key just stored. -/
theorem SessionStore.put_same (st : SessionStore) (uid : Nat) (s : UserSession) :
    (st.put uid s) uid = some s := by
  simp [SessionStore.put]

/-- Storing for one user does not affect another key. -/
theorem SessionStore.put_other (st : SessionStore) (uid u : Nat) (s : UserSession)
    (h : u ≠ uid) : (st.put uid s) u = st u := by
  simp [SessionStore.put, h]

/-- C9: for a user identifier with no session in the store, `handle_answer`
returns the `notStarted` reply (a result variant, not a fault), leaves the
store unchanged, and creates no session for that user. -/
theorem C9_not_started (st : SessionStore) (uid : Nat) (answer : String) (now : Int)
    (h : st uid = none) :
    handle_answer st uid answer now = (st, AnswerResult.notStarted) ∧
    (handle_answer st uid answer now).1 uid = none := by
  have he : handle_answer st uid answer now = (st, AnswerResult.notStarted) := by
    unfold handle_answer
    rw [h]
  exact ⟨he, by rw [he]; exact h⟩

/-- Witness for C9 at the empty store. -/
theorem C9_witness :
    handle_answer SessionStore.empty 1 "Under 18" 0 =
      (SessionStore.empty, AnswerResult.notStarted) ∧
    (handle_answer SessionStore.empty 1 "Under 18" 0).1 1 = none :=
  C9_not_started SessionStore.empty 1 "Under 18" 0 rfl

/-- C4: for an existing session whose current question exists, submitting a
text that is not exactly one of the current options yields the
`invalidOption` reply and leaves the whole store, hence the session with
all its fields, unchanged. -/
theorem C4_invalid_option (st : SessionStore) (uid : Nat) (answer : String) (now : Int)
    (s : UserSession) (q : Question)
    (hs : st uid = some s)
    (hq : QUESTIONS[s.current_question]? = some q)
    (hno : answer ∉ q.options) :
    handle_answer st uid answer now = (st, AnswerResult.invalidOption) ∧
    (handle_answer st uid answer now).1 uid = some s := by
  have he : handle_answer st uid answer now = (st, AnswerResult.invalidOption) := by
    unfold handle_answer
    rw [hs]
    simp only [hq, if_neg hno]
  exact ⟨he, by rw [he]; exact hs⟩

/-- Witness for C4: a fresh session rejects the text "nope". -/
theorem C4_witness :
    handle_answer (SessionStore.empty.put 1 (UserSession.new 1 0)) 1 "nope" 5 =
      (SessionStore.empty.put 1 (UserSession.new 1 0), AnswerResult.invalidOption) ∧
    (handle_answer (SessionStore.empty.put 1 (UserSession.new 1 0)) 1 "nope" 5).1 1 =
      some (UserSession.new 1 0) :=
  C4_invalid_option (SessionStore.empty.put 1 (UserSession.new 1 0)) 1 "nope" 5
    (UserSession.new 1 0)
    { question := "What's your age group?",
      options := ["Under 18", "18-25", "26-35", "36-50", "51+"] }
    rfl rfl (by decide)

/-- C8: when the cooldown guard does not fire, `start` stores a fresh
session (index 0, no answers, not completed) and replies with the prompt
for question index 0; a prompt for index `i` carries ordinal `i + 1`,
total 5, the catalog question text and its options in catalog order. -/
theorem C8_fresh_start (st : SessionStore) (uid : Nat) (now : Int)
    (h : cooldownHit st uid now = false) :
    (start st uid now).1 uid = some (UserSession.new uid now) ∧
    (UserSession.new uid now).current_question = 0 ∧
    (UserSession.new uid now).answers = [] ∧
    (UserSession.new uid now).completed = false ∧
    (start st uid now).2 = StartResult.started (ask_question (UserSession.new uid now)) ∧
    (∀ (s : UserSession) (q : Question), QUESTIONS[s.current_question]? = some q →
        ask_question s =
          some { ordinal := s.current_question + 1, total := 5,
                 text := q.question, options := q.options }) ∧
    ask_question (UserSession.new uid now) =
      some { ordinal := 1, total := 5, text := "What's your age group?",
             options := ["Under 18", "18-25", "26-35", "36-50", "51+"] } := by
  have hstore : (start st uid now).1 uid = some (UserSession.new uid now) := by
    unfold start
    rw [h]
    simp only [Bool.false_eq_true, if_false]
    exact SessionStore.put_same st uid (UserSession.new uid now)
  have hres : (start st uid now).2 =
      StartResult.started (ask_question (UserSession.new uid now)) := by
    unfold start
    rw [h]
    simp only [Bool.false_eq_true, if_false]
  refine ⟨hstore, rfl, rfl, rfl, hres, ?_, rfl⟩
  intro s q hq
  unfold ask_question
  rw [hq]
  rfl

/-- Witness for C8 at the empty store. -/
theorem C8_witness :
    (start SessionStore.empty 1 0).1 1 = some (UserSession.new 1 0) ∧
    (UserSession.new 1 0).current_question = 0 ∧
    (UserSession.new 1 0).answers = [] ∧
    (UserSession.new 1 0).completed = false ∧
    (start SessionStore.empty 1 0).2 =
      StartResult.started (ask_question (UserSession.new 1 0)) ∧
    (∀ (s : UserSession) (q : Question), QUESTIONS[s.current_question]? = some q →
        ask_question s =
          some { ordinal := s.current_question + 1, total := 5,
                 text := q.question, options := q.options }) ∧
    ask_question (UserSession.new 1 0) =
      some { ordinal := 1, total := 5, text := "What's your age group?",
             options := ["Under 18", "18-25", "26-35", "36-50", "51+"] } :=
  C8_fresh_start SessionStore.empty 1 0 rfl

/-- C2: for an existing completed session, `start` replies with the
cooldown result, leaving the store unchanged, exactly when fewer than 7
days (truncating-day arithmetic) have elapsed since `started_at`; the
carried remaining count is `7 - timedeltaDays elapsed`, which is at least
1 in that branch; elapsed exactly 3 days gives remaining 4; and 7 or more
elapsed days make `start` store a fresh session with empty answers
instead. -/
theorem C2_cooldown (st : SessionStore) (uid : Nat) (now : Int) (s : UserSession)
    (hs : st uid = some s) (hc : s.completed = true) :
    (((start st uid now).2 = StartResult.cooldown (startDaysLeft (now - s.started_at)) ∧
        (start st uid now).1 uid = some s) ↔ now - s.started_at < 7 * 86400) ∧
    (now - s.started_at < 7 * 86400 → 1 ≤ startDaysLeft (now - s.started_at)) ∧
    (s.started_at = now - 3 * 86400 →
        (start st uid now).2 = StartResult.cooldown 4) ∧
    (7 * 86400 ≤ now - s.started_at →
        (start st uid now).1 uid = some (UserSession.new uid now) ∧
        (UserSession.new uid now).answers = []) := by
  by_cases hlt : now - s.started_at < 7 * 86400
  · have hhit : cooldownHit st uid now = true := by
      unfold cooldownHit
      rw [hs]
      simp only [hc, true_and, Bool.true_and, decide_eq_true_eq, decide_eq_false_iff_not]
      omega
    have hstart : start st uid now =
        (st, StartResult.cooldown (startDaysLeft (now - s.started_at))) := by
      unfold start
      rw [hhit, hs]
      simp
    refine ⟨⟨fun _ => hlt, fun _ => ⟨by rw [hstart], by rw [hstart]; exact hs⟩⟩, ?_, ?_, ?_⟩
    · intro _
      unfold startDaysLeft timedeltaDays
      omega
    · intro h3
      rw [hstart]
      have : startDaysLeft (now - s.started_at) = 4 := by
        unfold startDaysLeft timedeltaDays
        omega
      rw [this]
    · intro hge
      omega
  · have hhit : cooldownHit st uid now = false := by
      unfold cooldownHit
      rw [hs]
      simp only [hc, true_and, Bool.true_and, decide_eq_true_eq, decide_eq_false_iff_not]
      omega
    have hstart : start st uid now =
        ((st.put uid (UserSession.new uid now)),
          StartResult.started (ask_question (UserSession.new uid now))) := by
      unfold start
      rw [hhit]
      simp
    refine ⟨⟨fun hcon => absurd (by rw [hstart] at hcon; exact hcon.1) (by simp),
        fun h => absurd h hlt⟩, fun h => absurd h hlt, ?_, ?_⟩
    · intro h3
      omega
    · intro _
      refine ⟨?_, rfl⟩
      rw [hstart]
      exact SessionStore.put_same st uid (UserSession.new uid now)

/-- Witness for C2: a completed session started exactly 3 days ago. -/
theorem C2_witness :
    ((start
        (SessionStore.empty.put 1
          { user_id := 1, current_question := 5, answers := [],
            started_at := 0, completed := true })
        1 (3 * 86400)).2 =
      StartResult.cooldown (startDaysLeft (3 * 86400 - 0)) ∧
      (start
        (SessionStore.empty.put 1
          { user_id := 1, current_question := 5, answers := [],
            started_at := 0, completed := true })
        1 (3 * 86400)).1 1 =
        some { user_id := 1, current_question := 5, answers := [],
               started_at := 0, completed := true }) ∧
    1 ≤ startDaysLeft (3 * 86400 - 0) ∧
    (start
        (SessionStore.empty.put 1
          { user_id := 1, current_question := 5, answers := [],
            started_at := 0, completed := true })
        1 (3 * 86400)).2 = StartResult.cooldown 4 := by
  have h := C2_cooldown
    (SessionStore.empty.put 1
      { user_id := 1, current_question := 5, answers := [],
        started_at := 0, completed := true })
    1 (3 * 86400)
    { user_id := 1, current_question := 5, answers := [],
      started_at := 0, completed := true }
    rfl rfl
  exact ⟨h.1.mpr (by decide), h.2.1 (by decide), h.2.2.1 (by decide)⟩

/-- C10: every remaining-day count actually rendered by the cooldown
branch of `start` is at least 1, and on those values the `> 1`
pluralization of `start` agrees with the canonical `!= 1` rule; the
pluralization of `review` agrees with the canonical rule on every value. -/
theorem C10_pluralization :
    (∀ (st : SessionStore) (uid : Nat) (now : Int) (d : Int),
        (start st uid now).2 = StartResult.cooldown d →
        1 ≤ d ∧ startDayWord d = canonicalDayWord d) ∧
    (∀ d : Int, reviewDayWord d = canonicalDayWord d) := by
  constructor
  · intro st uid now d hres
    have hd : 1 ≤ d := by
      unfold start at hres
      by_cases hhit : cooldownHit st uid now = true
      · rw [hhit] at hres
        simp only [if_true] at hres
        cases hst : st uid with
        | none =>
          unfold cooldownHit at hhit
          rw [hst] at hhit
          exact absurd hhit (by simp)
        | some s =>
          rw [hst] at hres
          have hlt : now - s.started_at < 7 * 86400 := by
            unfold cooldownHit at hhit
            rw [hst] at hhit
            exact (of_decide_eq_true (Bool.and_elim_right hhit))
          have hdval : d = startDaysLeft (now - s.started_at) := by
            cases hres
            rfl
          rw [hdval]
          unfold startDaysLeft timedeltaDays
          omega
      · rw [Bool.not_eq_true] at hhit
        rw [hhit] at hres
        simp at hres
    refine ⟨hd, ?_⟩
    unfold startDayWord canonicalDayWord
    by_cases h1 : d = 1
    · rw [h1]
      simp
    · have h2 : d > 1 := by omega
      rw [if_pos h2, if_neg h1]
      rfl
  · intro d
    unfold reviewDayWord canonicalDayWord
    by_cases h1 : d = 1
    · rw [h1]
      simp
    · rw [if_pos h1, if_neg h1]
      rfl

/-- Witness for C10: the cooldown reply rendered 3 days into the window
carries remaining 4 and is pluralized; and both rules agree at 1. -/
theorem C10_witness :
    (1 ≤ (4 : Int) ∧ startDayWord 4 = canonicalDayWord 4) ∧
    reviewDayWord 1 = canonicalDayWord 1 := by
  exact ⟨C10_pluralization.1
    (SessionStore.empty.put 1
      { user_id := 1, current_question := 5, answers := [],
        started_at := 0, completed := true })
    1 (3 * 86400) 4 (by decide), C10_pluralization.2 1⟩

/-- Field-by-field description of `add_answer`. -/
theorem add_answer_fields (s : UserSession) (a : AnsweredItem) :
    (s.add_answer a).1.user_id = s.user_id ∧
    (s.add_answer a).1.current_question = s.current_question + 1 ∧
    (s.add_answer a).1.answers = s.answers ++ [a] ∧
    (s.add_answer a).1.started_at = s.started_at ∧
    (s.add_answer a).1.completed =
      (decide (QUESTIONS.length ≤ s.current_question + 1) || s.completed) ∧
    (s.add_answer a).2 = decide (QUESTIONS.length ≤ s.current_question + 1) := by
  unfold UserSession.add_answer
  by_cases h : QUESTIONS.length ≤ s.current_question + 1
  · simp [h]
  · simp [h]

/-- A successful indexed lookup implies the index is in bounds. -/
theorem lt_length_of_getElem?_eq_some {l : List Question} {i : Nat} {q : Question}
    (h : l[i]? = some q) : i < l.length := by
  by_contra hge
  rw [List.getElem?_eq_none (by omega)] at h
  exact Option.noConfusion h

/-- A fresh session satisfies the invariant. -/
theorem inv_new (uid : Nat) (now : Int) : Inv (UserSession.new uid now) := by
  refine ⟨by simp [UserSession.new], ?_, by simp [UserSession.new]⟩
  simp [UserSession.new, QUESTIONS_length]

/-- `add_answer` below the catalog bound preserves the invariant. -/
theorem inv_add_answer (s : UserSession) (a : AnsweredItem)
    (hinv : Inv s) (hlt : s.current_question < QUESTIONS.length) :
    Inv (s.add_answer a).1 := by
  obtain ⟨h1, h2, h3⟩ := hinv
  obtain ⟨-, hcq, hans, -, hcom, -⟩ := add_answer_fields s a
  have hscom : s.completed = false := by
    cases hc : s.completed
    · rfl
    · exact absurd (h2.mpr hc) (by omega)
  refine ⟨by rw [hcq]; omega, ?_, ?_⟩
  · rw [hcq, hcom, hscom]
    simp only [Bool.or_false, decide_eq_true_eq]
    constructor
    · omega
    · omega
  · rw [hans, hcq, List.length_append, h3]
    rfl

/-- `start` either leaves the store unchanged or stores a fresh session
for the requesting user. -/
theorem start_store (st : SessionStore) (uid : Nat) (now : Int) :
    (start st uid now).1 = st ∨
    (start st uid now).1 = st.put uid (UserSession.new uid now) := by
  unfold start
  by_cases h : cooldownHit st uid now = true
  · rw [h]
    simp only [if_true]
    left
    cases st uid <;> rfl
  · rw [Bool.not_eq_true] at h
    rw [h]
    right
    rfl

/-- `handle_answer` either leaves the store unchanged or stores the
`add_answer` update of the existing session of the requesting user,
in which case the submitted text was a valid current option. -/
theorem handle_answer_store (st : SessionStore) (uid : Nat) (ans : String) (now : Int) :
    (handle_answer st uid ans now).1 = st ∨
    ∃ s q, st uid = some s ∧ QUESTIONS[s.current_question]? = some q ∧ ans ∈ q.options ∧
      (handle_answer st uid ans now).1 =
        st.put uid
          (s.add_answer { question := q.question, answer := ans, timestamp := now }).1 := by
  unfold handle_answer
  cases hst : st uid with
  | none => left; rfl
  | some s =>
    cases hq : QUESTIONS[s.current_question]? with
    | none =>
      left
      simp only [hq]
    | some q =>
      by_cases hin : ans ∈ q.options
      · right
        refine ⟨s, q, rfl, hq, hin, ?_⟩
        simp only [hq, if_pos hin]
        cases hr : (s.add_answer { question := q.question, answer := ans, timestamp := now }).2
        · simp [hr]
        · simp [hr]
      · left
        simp only [hq, if_neg hin]

/-- `handle_answer` on a session whose current index is out of catalog
range reports the index error and changes nothing. -/
theorem handle_answer_out_of_range (st : SessionStore) (uid : Nat) (ans : String)
    (now : Int) (s : UserSession) (hs : st uid = some s)
    (hq : QUESTIONS[s.current_question]? = none) :
    handle_answer st uid ans now = (st, AnswerResult.indexError) := by
  unfold handle_answer
  rw [hs]
  simp only [hq]

/-- Every session stored in a reachable store satisfies the invariant. -/
theorem inv_reachable (st : SessionStore) (h : Reachable st) :
    ∀ uid s, st uid = some s → Inv s := by
  induction h with
  | init =>
    intro uid s hs
    exact absurd hs (by simp [SessionStore.empty])
  | step_start st0 uid0 now0 _ ih =>
    intro uid s hs
    rcases start_store st0 uid0 now0 with he | he
    · rw [he] at hs
      exact ih uid s hs
    · rw [he] at hs
      by_cases heq : uid = uid0
      · subst heq
        rw [SessionStore.put_same] at hs
        cases hs
        exact inv_new uid now0
      · rw [SessionStore.put_other _ _ _ _ heq] at hs
        exact ih uid s hs
  | step_answer st0 uid0 ans now0 _ ih =>
    intro uid s hs
    rcases handle_answer_store st0 uid0 ans now0 with he | ⟨s0, q, hst, hq, _, he⟩
    · rw [he] at hs
      exact ih uid s hs
    · rw [he] at hs
      by_cases heq : uid = uid0
      · subst heq
        rw [SessionStore.put_same] at hs
        cases hs
        exact inv_add_answer s0 _ (ih uid s0 hst) (lt_length_of_getElem?_eq_some hq)
      · rw [SessionStore.put_other _ _ _ _ heq] at hs
        exact ih uid s hs

/-- Iterated `handle_answer` events keep the store reachable. -/
theorem reachable_runAnswers (uid : Nat) (now : Int) (as : List String) :
    ∀ st : SessionStore, Reachable st → Reachable (runAnswers st uid now as) := by
  induction as with
  | nil =>
    intro st h
    exact h
  | cons a rest ih =>
    intro st h
    exact ih _ (Reachable.step_answer st uid a now h)

/-- C3: in every store reachable by `start` and `handle_answer` events,
every stored session has its index in `[0, 5]`, the index is 5 exactly
when the session is completed, the answer count equals the index; and a
completed session instance is never un-completed: `add_answer`, the only
session mutation, preserves `completed = true`, and `handle_answer` on a
completed session leaves it stored unchanged. -/
theorem C3_invariant (st : SessionStore) (h : Reachable st) (uid : Nat) (s : UserSession)
    (hs : st uid = some s) :
    s.current_question ≤ 5 ∧
    (s.current_question = 5 ↔ s.completed = true) ∧
    s.answers.length = s.current_question ∧
    (∀ a : AnsweredItem, s.completed = true → ((s.add_answer a).1).completed = true) ∧
    (s.completed = true → ∀ (answer : String) (now : Int),
        (handle_answer st uid answer now).1 uid = some s) := by
  obtain ⟨h1, h2, h3⟩ := inv_reachable st h uid s hs
  rw [QUESTIONS_length] at h1 h2
  refine ⟨h1, h2, h3, ?_, ?_⟩
  · intro a hc
    obtain ⟨-, -, -, -, hcom, -⟩ := add_answer_fields s a
    rw [hcom, hc]
    simp
  · intro hc answer now
    have hq : QUESTIONS[s.current_question]? = none := by
      rw [h2.mpr hc]
      rfl
    rw [handle_answer_out_of_range st uid answer now s hs hq]
    exact hs

/-- Witness for C3: the store right after a fresh start. -/
theorem C3_witness :
    (UserSession.new 1 0).current_question ≤ 5 ∧
    ((UserSession.new 1 0).current_question = 5 ↔ (UserSession.new 1 0).completed = true) ∧
    (UserSession.new 1 0).answers.length = (UserSession.new 1 0).current_question ∧
    (∀ a : AnsweredItem, (UserSession.new 1 0).completed = true →
        (((UserSession.new 1 0).add_answer a).1).completed = true) ∧
    ((UserSession.new 1 0).completed = true → ∀ (answer : String) (now : Int),
        (handle_answer (start SessionStore.empty 1 0).1 1 answer now).1 1 =
          some (UserSession.new 1 0)) :=
  C3_invariant (start SessionStore.empty 1 0).1
    (Reachable.step_start SessionStore.empty 1 0 Reachable.init) 1
    (UserSession.new 1 0) rfl

/-- C6: in every reachable store, the catalog lookup
`QUESTIONS[session.current_question]` performed by `handle_answer` is in
bounds exactly for non-completed sessions: with `completed = false` the
index is below 5 and the lookup succeeds, while on a completed session
(index 5) the lookup is out of range, so `handle_answer` hits the
modelled `IndexError` rather than one of the ordinary reply variants. -/
theorem C6_lookup_bounds (st : SessionStore) (h : Reachable st) (uid : Nat)
    (s : UserSession) (hs : st uid = some s) :
    (s.completed = false →
        s.current_question < QUESTIONS.length ∧
        QUESTIONS[s.current_question]? =
          some (QUESTIONS.getD s.current_question { question := "", options := [] })) ∧
    (s.completed = true →
        s.current_question = QUESTIONS.length ∧
        QUESTIONS[s.current_question]? = none ∧
        ∀ (answer : String) (now : Int),
          handle_answer st uid answer now = (st, AnswerResult.indexError)) := by
  obtain ⟨h1, h2, h3⟩ := inv_reachable st h uid s hs
  constructor
  · intro hc
    have hlt : s.current_question < QUESTIONS.length := by
      rcases Nat.lt_or_ge s.current_question QUESTIONS.length with hx | hx
      · exact hx
      · have hceq : s.current_question = QUESTIONS.length := by omega
        rw [h2, hc] at hceq
        exact absurd hceq (by simp)
    refine ⟨hlt, ?_⟩
    rw [List.getElem?_eq_getElem hlt, List.getD_eq_getElem _ _ hlt]
  · intro hc
    have hq5 : s.current_question = QUESTIONS.length := h2.mpr hc
    have hq : QUESTIONS[s.current_question]? = none := by
      rw [hq5]
      rfl
    exact ⟨hq5, hq, fun answer now =>
      handle_answer_out_of_range st uid answer now s hs hq⟩

/-- Witness for C6: the store after a fresh start followed by the five
valid answers, whose session is completed with index 5. -/
theorem C6_witness :
    (doneSession.completed = false →
      doneSession.current_question < QUESTIONS.length ∧
      QUESTIONS[doneSession.current_question]? =
        some (QUESTIONS.getD doneSession.current_question { question := "", options := [] })) ∧
    (doneSession.completed = true →
      doneSession.current_question = QUESTIONS.length ∧
      QUESTIONS[doneSession.current_question]? = none ∧
      ∀ (answer : String) (now : Int),
        handle_answer doneStore 1 answer now = (doneStore, AnswerResult.indexError)) :=
  C6_lookup_bounds doneStore
    (reachable_runAnswers 1 0 demoAnswers (start SessionStore.empty 1 0).1
      (Reachable.step_start SessionStore.empty 1 0 Reachable.init))
    1 doneSession (by rfl)

/-- An accepted submission stores exactly the `add_answer` update. -/
theorem handle_answer_accepts (st : SessionStore) (uid : Nat) (ans : String) (now : Int)
    (s : UserSession) (q : Question)
    (hs : st uid = some s) (hq : QUESTIONS[s.current_question]? = some q)
    (hin : ans ∈ q.options) :
    (handle_answer st uid ans now).1 =
      st.put uid (s.add_answer { question := q.question, answer := ans, timestamp := now }).1 := by
  unfold handle_answer
  rw [hs]
  simp only [hq, if_pos hin]
  cases hr : (s.add_answer { question := q.question, answer := ans, timestamp := now }).2
  · simp [hr]
  · simp [hr]

/-- A run of valid in-bound submissions advances the session of the
submitting user exactly as `add_answer` prescribes: the index advances by
the number of submissions, the submitted texts are appended in order and
paired with the texts of the questions they answered, and the session
completes exactly when the index reaches the catalog size. -/
theorem runAnswers_valid (uid : Nat) (now : Int) :
    ∀ (texts : List String) (st : SessionStore) (s : UserSession),
      st uid = some s →
      s.completed = decide (s.current_question = QUESTIONS.length) →
      s.current_question + texts.length ≤ QUESTIONS.length →
      (∀ j, j < texts.length →
        texts.getD j "" ∈
          (QUESTIONS.getD (s.current_question + j) { question := "", options := [] }).options) →
      (runAnswers st uid now texts) uid = some
        { user_id := s.user_id
          current_question := s.current_question + texts.length
          answers := s.answers ++
            expectedAnswers now ((QUESTIONS.drop s.current_question).take texts.length) texts
          started_at := s.started_at
          completed := decide (s.current_question + texts.length = QUESTIONS.length) } := by
  intro texts
  induction texts with
  | nil =>
    intro st s hs hcom _ _
    simp only [runAnswers, List.length_nil, Nat.add_zero, List.take_zero, expectedAnswers,
      List.zipWith_nil_right, List.append_nil]
    rw [hs, ← hcom]
  | cons a rest ih =>
    intro st s hs hcom hbound hvalid
    have hlen : (a :: rest).length = rest.length + 1 := rfl
    rw [hlen] at hbound
    have hlt : s.current_question < QUESTIONS.length := by omega
    have hq : QUESTIONS[s.current_question]? =
        some (QUESTIONS.getD s.current_question { question := "", options := [] }) := by
      rw [List.getElem?_eq_getElem hlt, List.getD_eq_getElem _ _ hlt]
    have hin : a ∈ (QUESTIONS.getD s.current_question
        { question := "", options := [] }).options := by
      have h0 := hvalid 0 (by simp)
      simpa using h0
    have hcfalse : s.completed = false := by
      rw [hcom, decide_eq_false (by omega : ¬ s.current_question = QUESTIONS.length)]
    obtain ⟨hu, hcq, hans, hst0, hcom1, -⟩ := add_answer_fields s
      { question := (QUESTIONS.getD s.current_question
          { question := "", options := [] }).question
        answer := a
        timestamp := now }
    have hstep := handle_answer_accepts st uid a now s
      (QUESTIONS.getD s.current_question { question := "", options := [] }) hs hq hin
    have hih := ih
      (st.put uid (s.add_answer
        { question := (QUESTIONS.getD s.current_question
            { question := "", options := [] }).question
          answer := a
          timestamp := now }).1)
      (s.add_answer
        { question := (QUESTIONS.getD s.current_question
            { question := "", options := [] }).question
          answer := a
          timestamp := now }).1
      (SessionStore.put_same _ _ _)
      (by
        rw [hcom1, hcq, hcfalse]
        simp only [Bool.or_false]
        rw [decide_eq_decide]
        omega)
      (by rw [hcq]; omega)
      (by
        intro j hj
        have h2 := hvalid (j + 1) (by simp; omega)
        rw [List.getD_cons_succ] at h2
        rw [hcq]
        have harith : s.current_question + (j + 1) = s.current_question + 1 + j := by omega
        rw [harith] at h2
        exact h2)
    simp only [runAnswers]
    rw [hstep, hih]
    rw [hu, hcq, hans, hst0]
    have hdrop : QUESTIONS.drop s.current_question =
        QUESTIONS[s.current_question] :: QUESTIONS.drop (s.current_question + 1) :=
      List.drop_eq_getElem_cons hlt
    rw [hlen, hdrop]
    simp only [List.take_succ_cons, expectedAnswers, List.zipWith_cons_cons,
      List.getD_eq_getElem _ _ hlt, List.append_assoc, List.singleton_append,
      Option.some.injEq, UserSession.mk.injEq, true_and, and_true]
    constructor
    · omega
    · rw [decide_eq_decide]
      omega

/-- Length of the expected answer trace of k submissions. -/
theorem expectedAnswers_length (now : Int) (texts : List String) (k : Nat)
    (hlen : texts.length = 5) (hk : k ≤ 5) :
    (expectedAnswers now (QUESTIONS.take k) (texts.take k)).length = k := by
  rw [expectedAnswers, List.length_zipWith, List.length_take, List.length_take, hlen,
    QUESTIONS_length]
  omega

/-- The session stored after a fresh start and k valid submissions. -/
theorem runAnswers_from_start (uid : Nat) (now t0 : Int) (texts : List String)
    (hlen : texts.length = 5)
    (hvalid : ∀ j, j < 5 →
      texts.getD j "" ∈ (QUESTIONS.getD j { question := "", options := [] }).options)
    (k : Nat) (hk : k ≤ 5) :
    (runAnswers (start SessionStore.empty uid t0).1 uid now (texts.take k)) uid =
      some { user_id := uid
             current_question := k
             answers := expectedAnswers now (QUESTIONS.take k) (texts.take k)
             started_at := t0
             completed := decide (k = 5) } := by
  have htklen : (texts.take k).length = k := by
    rw [List.length_take, hlen]
    omega
  have hstore : (start SessionStore.empty uid t0).1 uid =
      some (UserSession.new uid t0) := by
    have h1 : (start SessionStore.empty uid t0).1 =
        SessionStore.empty.put uid (UserSession.new uid t0) := rfl
    rw [h1]
    exact SessionStore.put_same _ _ _
  have hrun := runAnswers_valid uid now (texts.take k)
    (start SessionStore.empty uid t0).1 (UserSession.new uid t0) hstore rfl
    (by
      rw [htklen, QUESTIONS_length]
      show 0 + k ≤ 5
      omega)
    (by
      intro j hj
      rw [htklen] at hj
      have hj5 : j < 5 := by omega
      have hmem := hvalid j hj5
      have hgd : (texts.take k).getD j "" = texts.getD j "" := by
        rw [List.getD_eq_getElem?_getD, List.getD_eq_getElem?_getD, List.getElem?_take]
        simp [hj]
      rw [hgd]
      simpa [UserSession.new] using hmem)
  rw [hrun]
  simp [UserSession.new, htklen, List.drop_zero, QUESTIONS_length, expectedAnswers]

/-- C1: starting fresh and submitting a valid option for each of the five
questions in order drives the index through 0,1,2,3,4,5 (after k accepted
submissions the index is k), sets `completed` exactly upon acceptance of
the 5th answer and not before, and grows the answer list by one entry per
step, each entry pairing the catalog question text of its question with
the submitted text. -/
theorem C1_full_run (uid : Nat) (now t0 : Int) (texts : List String)
    (hlen : texts.length = 5)
    (hvalid : ∀ j, j < 5 →
      texts.getD j "" ∈ (QUESTIONS.getD j { question := "", options := [] }).options) :
    ∀ k, k ≤ 5 →
      (runAnswers (start SessionStore.empty uid t0).1 uid now (texts.take k)) uid =
        some { user_id := uid
               current_question := k
               answers := expectedAnswers now (QUESTIONS.take k) (texts.take k)
               started_at := t0
               completed := decide (k = 5) } ∧
      (expectedAnswers now (QUESTIONS.take k) (texts.take k)).length = k ∧
      (∀ j, j < k →
        (expectedAnswers now (QUESTIONS.take k) (texts.take k)).getD j
            { question := "", answer := "", timestamp := 0 } =
          { question := (QUESTIONS.getD j { question := "", options := [] }).question
            answer := texts.getD j ""
            timestamp := now }) := by
  intro k hk
  have hzlen : (expectedAnswers now (QUESTIONS.take k) (texts.take k)).length = k :=
    expectedAnswers_length now texts k hlen hk
  refine ⟨runAnswers_from_start uid now t0 texts hlen hvalid k hk, hzlen, ?_⟩
  intro j hj
  rw [List.getD_eq_getElem _ _ (by rw [hzlen]; exact hj)]
  have hjq : j < QUESTIONS.length := by rw [QUESTIONS_length]; omega
  have hjt : j < texts.length := by rw [hlen]; omega
  simp only [expectedAnswers, List.getElem_zipWith, List.getElem_take]
  rw [List.getD_eq_getElem _ _ hjq, List.getD_eq_getElem _ _ hjt]

/-- Witness for C1: the five demo answers, all five submitted. -/
theorem C1_witness :
    (runAnswers (start SessionStore.empty 1 0).1 1 0 (demoAnswers.take 5)) 1 =
      some { user_id := 1
             current_question := 5
             answers := expectedAnswers 0 (QUESTIONS.take 5) (demoAnswers.take 5)
             started_at := 0
             completed := decide (5 = 5) } ∧
    (expectedAnswers 0 (QUESTIONS.take 5) (demoAnswers.take 5)).length = 5 ∧
    (∀ j, j < 5 →
      (expectedAnswers 0 (QUESTIONS.take 5) (demoAnswers.take 5)).getD j
          { question := "", answer := "", timestamp := 0 } =
        { question := (QUESTIONS.getD j { question := "", options := [] }).question
          answer := demoAnswers.getD j ""
          timestamp := 0 }) :=
  C1_full_run 1 0 0 demoAnswers rfl (by decide) 5 (by omega)

/-- C7: `review` reports nothing exactly when no session exists or no
answer has been recorded; otherwise it returns the recorded answer list
verbatim, in stored (submission) order, carrying the remaining-cooldown
count `max(0, 7 - elapsed days)` exactly when the session is completed
and the in-progress reply otherwise; on every elapsed time where the
cooldown branch of `start` renders a remaining count, the `review`
formula agrees with the `start` formula; and after a fresh start and k
valid submissions (1 ≤ k < 5), `review` returns exactly the k appended
entries in submission order. -/
theorem C7_review (st : SessionStore) (uid : Nat) (now : Int) :
    (review st uid now = ReviewResult.nothingToReview ↔
      st uid = none ∨ ∃ s, st uid = some s ∧ s.answers = []) ∧
    (∀ s, st uid = some s → s.answers ≠ [] →
      (s.completed = false → review st uid now = ReviewResult.inProgress s.answers) ∧
      (s.completed = true → review st uid now =
        ReviewResult.completedReview s.answers (reviewDaysLeft (now - s.started_at)))) ∧
    (∀ e : Int, e < 7 * 86400 → reviewDaysLeft e = startDaysLeft e) ∧
    (∀ (t0 : Int) (texts : List String) (k : Nat),
      texts.length = 5 →
      (∀ j, j < 5 →
        texts.getD j "" ∈ (QUESTIONS.getD j { question := "", options := [] }).options) →
      1 ≤ k → k < 5 →
      review (runAnswers (start SessionStore.empty uid t0).1 uid now (texts.take k)) uid now =
        ReviewResult.inProgress (expectedAnswers now (QUESTIONS.take k) (texts.take k))) := by
  refine ⟨?_, ?_, ?_, ?_⟩
  · unfold review
    cases hst : st uid with
    | none => simp
    | some s =>
      by_cases ha : s.answers = []
      · simp [ha]
      · by_cases hc : s.completed
        · simp [ha, hc]
        · simp [ha, hc]
  · intro s hs ha
    constructor
    · intro hc
      unfold review
      rw [hs]
      simp [ha, hc]
    · intro hc
      unfold review
      rw [hs]
      simp [ha, hc]
  · intro e he
    unfold reviewDaysLeft startDaysLeft timedeltaDays
    omega
  · intro t0 texts k hlen5 hval hk1 hk5
    have hrun := runAnswers_from_start uid now t0 texts hlen5 hval k (by omega)
    have hzlen : (expectedAnswers now (QUESTIONS.take k) (texts.take k)).length = k :=
      expectedAnswers_length now texts k hlen5 (by omega)
    have hne : expectedAnswers now (QUESTIONS.take k) (texts.take k) ≠ [] := by
      intro hcon
      rw [hcon] at hzlen
      simp at hzlen
      omega
    unfold review
    rw [hrun]
    simp [hne, decide_eq_false (by omega : ¬ k = 5)]

/-- Witness for C7: after a fresh start and two valid submissions, the
review lists exactly the two recorded entries, in order. -/
theorem C7_witness :
    review (runAnswers (start SessionStore.empty 1 0).1 1 0 (demoAnswers.take 2)) 1 0 =
      ReviewResult.inProgress (expectedAnswers 0 (QUESTIONS.take 2) (demoAnswers.take 2)) ∧
    reviewDaysLeft (3 * 86400) = startDaysLeft (3 * 86400) :=
  ⟨(C7_review (runAnswers (start SessionStore.empty 1 0).1 1 0 (demoAnswers.take 2)) 1 0).2.2.2
      0 demoAnswers 2 rfl (by decide) (by omega) (by omega),
    (C7_review SessionStore.empty 1 0).2.2.1 (3 * 86400) (by omega)⟩

/-- Counterexample to C5 as stated: user 1 holds an incomplete session
(index 1, one recorded answer); a start event at time 0 replaces it with
a fresh empty session, so a start received while an incomplete session
exists does replace that session. -/
theorem C5_counterexample :
    midSession.completed = false ∧
    (SessionStore.empty.put 1 midSession) 1 = some midSession ∧
    (start (SessionStore.empty.put 1 midSession) 1 0).1 1 = some (UserSession.new 1 0) ∧
    UserSession.new 1 0 ≠ midSession :=
  ⟨rfl, rfl, rfl, by decide⟩

/-- C5 (amended): a start event creates and stores a fresh session
exactly when the cooldown guard does not fire: when no session exists,
when the existing session is incomplete, or when it is completed with 7
or more elapsed days; in particular a start event received during an
incomplete session replaces that session. -/
theorem C5_amended_start (st : SessionStore) (uid : Nat) (now : Int) :
    (start st uid now).1 uid = some (UserSession.new uid now) ↔
      ¬ ∃ s, st uid = some s ∧ s.completed = true ∧ now - s.started_at < 7 * 86400 := by
  constructor
  · intro hnew hex
    obtain ⟨s, hs, hc, hlt⟩ := hex
    have hhit : cooldownHit st uid now = true := by
      unfold cooldownHit
      rw [hs]
      simp only [hc, Bool.true_and, decide_eq_true_eq]
      omega
    have hunch : (start st uid now).1 = st := by
      unfold start
      rw [hhit]
      simp only [if_true]
      cases st uid <;> rfl
    rw [hunch, hs] at hnew
    have hse : s = UserSession.new uid now := by
      injection hnew
    rw [hse] at hc
    exact absurd hc (by simp [UserSession.new])
  · intro hno
    have hhit : cooldownHit st uid now = false := by
      unfold cooldownHit
      cases hst : st uid with
      | none => rfl
      | some s =>
        by_contra hcon
        rw [Bool.not_eq_false, Bool.and_eq_true, decide_eq_true_eq] at hcon
        exact hno ⟨s, hst, hcon.1, hcon.2⟩
    unfold start
    rw [hhit]
    simp only [Bool.false_eq_true, if_false]
    exact SessionStore.put_same st uid (UserSession.new uid now)

/-- Witness for the amended C5 at the incomplete-session store. -/
theorem C5_witness :
    (start (SessionStore.empty.put 1 midSession) 1 0).1 1 =
        some (UserSession.new 1 0) ↔
      ¬ ∃ s, (SessionStore.empty.put 1 midSession) 1 = some s ∧ s.completed = true ∧
        (0 : Int) - s.started_at < 7 * 86400 :=
  C5_amended_start (SessionStore.empty.put 1 midSession) 1 0

end Survey
